import Mathlib

/-!
Shallow embedding of `src/health_check.py` (an HTTP health-check monitor)
and proofs of the specification claims about it.

The network is modelled explicitly: one HTTP attempt either raises a
transport exception (`requests.RequestException`) or yields a response
with a status code and a measured wall-clock latency in milliseconds.
Python `dict`/`defaultdict` values are modelled as insertion-ordered
association lists, matching CPython's ordered dictionaries; a
`defaultdict` read of a missing key inserts the default, which the
embedding makes explicit so that non-mutation claims are real theorems.
-/

namespace HealthCheck

/-- The seven HTTP methods appearing in `method_switcher` (lines 40-48). -/
inductive HttpMethod where
  | GET
  | POST
  | PUT
  | DELETE
  | HEAD
  | OPTIONS
  | PATCH
  deriving DecidableEq, Repr

/-- Abstract behaviour of one transport-level HTTP attempt: either a
`requests.RequestException` is raised (connection refused, timeout, DNS
failure, malformed response, ...) or a response arrives carrying a status
code, with `latencyMs` the value of `(time.time() - start_time) * 1000`
measured when line 56 runs. -/
inductive NetResult where
  | exn
  | response (status : ℤ) (latencyMs : ℚ)
  deriving DecidableEq

/-- A Python value that `send_request` could return according to its type
annotation `Tuple[str, Optional[float]]`: either a bare string or a
(string, optional latency) pair. The actual code only ever returns bare
strings, which claim C9 is about. -/
inductive SendResult where
  | str (s : String)
  | tuple (s : String) (lat : Option ℚ)
  deriving DecidableEq, Repr

/-- Instrumented result of `send_request` (lines 22-63): the returned
Python value, the final contents of the local variable `latency`
(`some` iff the assignment on line 56 executed), and which entry of
`method_switcher` was invoked (which HTTP method was issued). -/
structure SendOutcome where
  result : SendResult
  latencyVar : Option ℚ
  methodUsed : HttpMethod
  deriving DecidableEq

/-- Python's `str.upper()` as used on line 51: uppercase every character
(the method strings involved are ASCII). -/
def py_upper (s : String) : String :=
  ⟨s.data.map Char.toUpper⟩

/-- `method_switcher.get(key, session.get)` (lines 40-48, 51): dictionary
lookup on the already-uppercased method string, defaulting to GET. -/
def method_switcher_get (s : String) : HttpMethod :=
  if s = "GET" then .GET
  else if s = "POST" then .POST
  else if s = "PUT" then .PUT
  else if s = "DELETE" then .DELETE
  else if s = "HEAD" then .HEAD
  else if s = "OPTIONS" then .OPTIONS
  else if s = "PATCH" then .PATCH
  else .GET

/-- `send_request` (lines 22-63). `net` gives the transport-level outcome
of issuing the request with a given method. The body mirrors the source:
pick the request function by `method.upper()` with GET as default, issue
the request; a `requests.RequestException` returns `'DOWN'`; a response
with 2xx status has its latency measured, and `'UP'` is returned iff that
latency is `< 500` ms; every other path falls through to `return 'DOWN'`. -/
def send_request (method : String) (url : String)
    (headers : List (String × String)) (body : Option String)
    (net : HttpMethod → NetResult) : SendOutcome :=
  let requestFunction := method_switcher_get (py_upper method)
  match net requestFunction with
  | .exn => ⟨.str "DOWN", none, requestFunction⟩
  | .response status latencyMs =>
    if 200 ≤ status ∧ status < 300 then
      if latencyMs < 500 then ⟨.str "UP", some latencyMs, requestFunction⟩
      else ⟨.str "DOWN", some latencyMs, requestFunction⟩
    else ⟨.str "DOWN", none, requestFunction⟩

/-- An endpoint descriptor as consumed by `check_endpoint` (lines 78-81):
`url` is required, `method` defaults to `'GET'` when absent, `headers`
defaults to `{}`, `body` to `None`. -/
structure Endpoint where
  url : String
  method : Option String
  headers : List (String × String)
  body : Option String

/-- `check_endpoint` (lines 65-83): extract the descriptor fields with
their defaults and delegate to `send_request`. -/
def check_endpoint (endpoint : Endpoint) (net : HttpMethod → NetResult) :
    SendOutcome :=
  send_request (endpoint.method.getD "GET") endpoint.url endpoint.headers
    endpoint.body net

/-! ### `urlparse(url).netloc` (line 104)

Model of the scheme/netloc extraction performed by
`urllib.parse.urlsplit`: if the text before the first `':'` is a
non-empty run of scheme characters starting with an ASCII letter, it is
stripped as the scheme; then, if the remainder starts with `'//'`, the
netloc is everything up to the next `'/'`, `'?'` or `'#'`; otherwise the
netloc is empty. -/

/-- Membership in `urllib.parse`'s `scheme_chars`
(ASCII letters, digits, `'+'`, `'-'`, `'.'`). -/
def is_scheme_char (c : Char) : Bool :=
  c.isAlpha || c.isDigit || c == '+' || c == '-' || c == '.'

/-- Split a character list at its first `':'`, returning the parts before
and after it, or `none` when there is no `':'` (models `url.find(':')`). -/
def splitAtColon : List Char → Option (List Char × List Char)
  | [] => none
  | c :: rest =>
    if c = ':' then some ([], rest)
    else
      match splitAtColon rest with
      | some (pre, post) => some (c :: pre, post)
      | none => none

/-- Strip a leading `scheme:` when the text before the first `':'` is
non-empty, starts with an ASCII letter, and consists of scheme
characters; otherwise return the input unchanged. -/
def strip_scheme (url : List Char) : List Char :=
  match splitAtColon url with
  | some (pre, post) =>
    if !pre.isEmpty && (pre.headD 'a').isAlpha && pre.all is_scheme_char
    then post else url
  | none => url

/-- `urlparse(url).netloc` on character lists: after scheme stripping,
a netloc exists iff the remainder starts with `'//'`, and extends to the
next `'/'`, `'?'` or `'#'`. -/
def netloc_chars (url : List Char) : List Char :=
  match strip_scheme url with
  | '/' :: '/' :: r => r.takeWhile (fun c => !(c == '/' || c == '?' || c == '#'))
  | _ => []

/-- `urlparse(url).netloc` as used on line 104. -/
def netloc (url : String) : String :=
  ⟨netloc_chars url.data⟩

/-! ### The aggregator (lines 94-95, 104-116) -/

/-- One value of `domain_stats`: the per-domain `{'up': ..., 'down': ...}`
counter pair. -/
structure DomainCounters where
  up : ℕ
  down : ℕ
  deriving DecidableEq, Repr

/-- The monitor's aggregation state (lines 94-95): the two module maps
`domain_stats` and `domain_totals`, as insertion-ordered association
lists. -/
structure MonitorState where
  domain_stats : List (String × DomainCounters)
  domain_totals : List (String × ℕ)
  deriving DecidableEq

/-- Ordinary dictionary lookup (first matching key). -/
def lookupA {α : Type} : List (String × α) → String → Option α
  | [], _ => none
  | (k, v) :: rest, key => if key = k then some v else lookupA rest key

/-- `d[key] = f(d[key])` on a `defaultdict` with default `dflt`: the
first entry for `key` is updated in place; a missing key is inserted at
the end (CPython dictionaries preserve insertion order). -/
def updateD {α : Type} (l : List (String × α)) (key : String) (dflt : α)
    (f : α → α) : List (String × α) :=
  match l with
  | [] => [(key, f dflt)]
  | (k, v) :: rest =>
    if key = k then (k, f v) :: rest else (k, v) :: updateD rest key dflt f

/-- A bare `defaultdict(int)` read `d[key]` (line 114): returns the value
and the possibly-grown dictionary, since `__getitem__` inserts the
default `0` for a missing key. -/
def dget (l : List (String × ℕ)) (key : String) : ℕ × List (String × ℕ) :=
  match lookupA l key with
  | some v => (v, l)
  | none => (0, l ++ [(key, 0)])

/-- Lines 104-110: compute `domain = urlparse(url).netloc`, increment
`domain_totals[domain]`, then increment `domain_stats[domain]['up']`
when `status == 'UP'` and `domain_stats[domain]['down']` otherwise. -/
def recordOutcome (st : MonitorState) (url : String) (status : SendResult) :
    MonitorState :=
  let domain := netloc url
  let totals := updateD st.domain_totals domain 0 (fun n => n + 1)
  let stats :=
    if status = .str "UP" then
      updateD st.domain_stats domain ⟨0, 0⟩ (fun c => ⟨c.up + 1, c.down⟩)
    else
      updateD st.domain_stats domain ⟨0, 0⟩ (fun c => ⟨c.up, c.down + 1⟩)
  ⟨stats, totals⟩

/-- One printed report line (line 116): the domain and the rounded
percentage. -/
structure ReportLine where
  domain : String
  percent : ℤ
  deriving DecidableEq, Repr

/-- Line 115's conditional expression:
`(100 * stats['up'] / total_count) if total_count else 0`. -/
def availability_of (up total : ℕ) : ℚ :=
  if total ≠ 0 then (100 * up : ℚ) / total else 0

/-- Python's built-in `round` to an integer: nearest integer, ties to the
even neighbour. -/
def py_round (q : ℚ) : ℤ :=
  if q - ⌊q⌋ < 1 / 2 then ⌊q⌋
  else if (1 : ℚ) / 2 < q - ⌊q⌋ then ⌊q⌋ + 1
  else if ⌊q⌋ % 2 = 0 then ⌊q⌋ else ⌊q⌋ + 1

/-- The reporting loop of lines 113-116, folding over
`domain_stats.items()` while threading `domain_totals` through the
`defaultdict` reads of line 114. -/
def snapshotGo (items : List (String × DomainCounters))
    (totals : List (String × ℕ)) : List ReportLine × List (String × ℕ) :=
  match items with
  | [] => ([], totals)
  | (domain, stats) :: rest =>
    let r := dget totals domain
    let availability := availability_of stats.up r.1
    let tail := snapshotGo rest r.2
    (⟨domain, py_round availability⟩ :: tail.1, tail.2)

/-- Lines 113-116: produce the availability report from the current
counters, together with the state as it stands afterwards. -/
def snapshot (st : MonitorState) : List ReportLine × MonitorState :=
  let r := snapshotGo st.domain_stats st.domain_totals
  (r.1, ⟨st.domain_stats, r.2⟩)

/-! ### The monitor loop (lines 99-119) -/

/-- The body of one `while True` iteration (lines 101-116): probe every
endpoint in declaration order, record each outcome, then emit the
report. `net e` is the transport behaviour of this cycle's request to
endpoint `e`. -/
def monitor_cycle (st : MonitorState) (endpoints : List Endpoint)
    (net : Endpoint → HttpMethod → NetResult) :
    MonitorState × List ReportLine :=
  let recorded := endpoints.foldl
    (fun s e => recordOutcome s e.url (check_endpoint e (net e)).result) st
  let rep := snapshot recorded
  (rep.2, rep.1)

/-- `monitor_endpoints` (lines 85-119) run for finitely many cycles: the
state starts from the empty maps of lines 94-95 and is threaded from each
cycle into the next (never reset); the reports of all cycles are
collected in order. -/
def monitor_endpoints (endpoints : List Endpoint)
    (nets : List (Endpoint → HttpMethod → NetResult)) :
    MonitorState × List (List ReportLine) :=
  nets.foldl
    (fun acc net =>
      let r := monitor_cycle acc.1 endpoints net
      (r.1, acc.2 ++ [r.2]))
    (⟨[], []⟩, [])

/-! ### Derived views and reachability -/

/-- `domain_totals[d]` as a pure observation (missing key reads as 0). -/
def totalCount (st : MonitorState) (d : String) : ℕ :=
  (lookupA st.domain_totals d).getD 0

/-- `domain_stats[d]['up']` as a pure observation. -/
def upCount (st : MonitorState) (d : String) : ℕ :=
  ((lookupA st.domain_stats d).getD ⟨0, 0⟩).up

/-- `domain_stats[d]['down']` as a pure observation. -/
def downCount (st : MonitorState) (d : String) : ℕ :=
  ((lookupA st.domain_stats d).getD ⟨0, 0⟩).down

/-- The keys of `domain_stats`, in insertion order. -/
def statsKeys (st : MonitorState) : List String :=
  st.domain_stats.map Prod.fst

/-- The keys of `domain_totals`, in insertion order. -/
def totalsKeys (st : MonitorState) : List String :=
  st.domain_totals.map Prod.fst

/-- Replay a list of (url, classification) events into the aggregator. -/
def record_all (st : MonitorState) (events : List (String × SendResult)) :
    MonitorState :=
  events.foldl (fun s p => recordOutcome s p.1 p.2) st

/-- The sequence of (url, classification) pairs a cycle records, in the
order the endpoints are declared. -/
def cycle_trace (endpoints : List Endpoint)
    (net : Endpoint → HttpMethod → NetResult) : List (String × SendResult) :=
  endpoints.map (fun e => (e.url, (check_endpoint e (net e)).result))

/-- The aggregator states the monitor can be in: the initial empty maps,
closed under recording one outcome and under producing a report. -/
inductive Reachable : MonitorState → Prop where
  | init : Reachable ⟨[], []⟩
  | record {st : MonitorState} (url : String) (status : SendResult) :
      Reachable st → Reachable (recordOutcome st url status)
  | snap {st : MonitorState} : Reachable st → Reachable (snapshot st).2

/-- The invariant maintained by every reachable aggregator state: the two
maps have the same keys in the same order, the up and down counters of a
domain always sum to its total, and every tracked domain has been probed
at least once. -/
def Inv (st : MonitorState) : Prop :=
  statsKeys st = totalsKeys st ∧
  (∀ d, upCount st d + downCount st d = totalCount st d) ∧
  (∀ d ∈ statsKeys st, 1 ≤ totalCount st d)

/-- The aggregator state after one endpoint on domain `example.com` has
been probed three times with outcomes UP, DOWN, UP (the scenario of the
spec's testable property about three alternating cycles). -/
def sample3 : MonitorState :=
  record_all ⟨[], []⟩
    [("http://example.com/a", .str "UP"),
     ("http://example.com/a", .str "DOWN"),
     ("http://example.com/a", .str "UP")]

/-! ### Association-list lemmas -/

theorem lookupA_updateD_self {α : Type} (l : List (String × α)) (k : String)
    (d : α) (f : α → α) :
    lookupA (updateD l k d f) k = some (f ((lookupA l k).getD d)) := by
  induction l with
  | nil => simp [lookupA, updateD]
  | cons p rest ih =>
    obtain ⟨k', v⟩ := p
    by_cases h : k = k' <;> simp [lookupA, updateD, h, ih]

theorem lookupA_updateD_ne {α : Type} (l : List (String × α)) (k k' : String)
    (d : α) (f : α → α) (h : k' ≠ k) :
    lookupA (updateD l k d f) k' = lookupA l k' := by
  induction l with
  | nil => simp [lookupA, updateD, h]
  | cons p rest ih =>
    obtain ⟨a, v⟩ := p
    by_cases hk : k = a
    · subst hk
      simp [lookupA, updateD, h]
    · by_cases hk' : k' = a <;> simp [lookupA, updateD, hk, hk', ih]

theorem keys_updateD {α : Type} (l : List (String × α)) (k : String) (d : α)
    (f : α → α) :
    (updateD l k d f).map Prod.fst =
      if k ∈ l.map Prod.fst then l.map Prod.fst else l.map Prod.fst ++ [k] := by
  induction l with
  | nil => simp [updateD]
  | cons p rest ih =>
    obtain ⟨a, v⟩ := p
    by_cases h : k = a
    · simp [updateD, h]
    · have hne : a ≠ k := fun hh => h hh.symm
      by_cases hm : k ∈ rest.map Prod.fst <;> simp [updateD, h, hne, ih, hm]

theorem lookupA_isSome_iff {α : Type} (l : List (String × α)) (k : String) :
    (lookupA l k).isSome ↔ k ∈ l.map Prod.fst := by
  induction l with
  | nil => simp [lookupA]
  | cons p rest ih =>
    obtain ⟨a, v⟩ := p
    by_cases h : k = a <;> simp [lookupA, h, ih]

theorem dget_fst (l : List (String × ℕ)) (k : String) :
    (dget l k).1 = (lookupA l k).getD 0 := by
  unfold dget
  cases h : lookupA l k <;> simp [h]

theorem dget_snd_of_mem (l : List (String × ℕ)) (k : String)
    (h : k ∈ l.map Prod.fst) : (dget l k).2 = l := by
  unfold dget
  cases hl : lookupA l k with
  | none =>
    rw [← lookupA_isSome_iff] at h
    rw [hl] at h
    simp at h
  | some v => simp

theorem lookupA_append_single (l : List (String × ℕ)) (k k' : String) :
    (lookupA (l ++ [(k, 0)]) k').getD 0 = (lookupA l k').getD 0 := by
  induction l with
  | nil =>
    by_cases h : k' = k <;> simp [lookupA, h]
  | cons p rest ih =>
    obtain ⟨a, v⟩ := p
    by_cases h : k' = a <;> simp [lookupA, h, ih]

theorem dget_getD (l : List (String × ℕ)) (k k' : String) :
    (lookupA (dget l k).2 k').getD 0 = (lookupA l k').getD 0 := by
  unfold dget
  cases h : lookupA l k with
  | none => simp [lookupA_append_single]
  | some v => simp

/-! ### Single-record observation lemmas -/

theorem totalCount_record (st : MonitorState) (u : String) (r : SendResult)
    (d : String) :
    totalCount (recordOutcome st u r) d =
      totalCount st d + (if d = netloc u then 1 else 0) := by
  unfold totalCount recordOutcome
  by_cases h : d = netloc u
  · subst h
    simp [lookupA_updateD_self]
  · simp [lookupA_updateD_ne _ _ _ _ _ h, h]

theorem upCount_record (st : MonitorState) (u : String) (r : SendResult)
    (d : String) :
    upCount (recordOutcome st u r) d =
      upCount st d + (if d = netloc u ∧ r = .str "UP" then 1 else 0) := by
  unfold upCount recordOutcome
  by_cases h : d = netloc u
  · by_cases hr : r = SendResult.str "UP" <;>
      simp [hr, h, lookupA_updateD_self]
  · by_cases hr : r = SendResult.str "UP" <;>
      simp [hr, h, lookupA_updateD_ne _ _ _ _ _ h]

theorem downCount_record (st : MonitorState) (u : String) (r : SendResult)
    (d : String) :
    downCount (recordOutcome st u r) d =
      downCount st d + (if d = netloc u ∧ r ≠ .str "UP" then 1 else 0) := by
  unfold downCount recordOutcome
  by_cases h : d = netloc u
  · by_cases hr : r = SendResult.str "UP" <;>
      simp [hr, h, lookupA_updateD_self]
  · by_cases hr : r = SendResult.str "UP" <;>
      simp [hr, h, lookupA_updateD_ne _ _ _ _ _ h]

theorem statsKeys_record (st : MonitorState) (u : String) (r : SendResult) :
    statsKeys (recordOutcome st u r) =
      if netloc u ∈ statsKeys st then statsKeys st
      else statsKeys st ++ [netloc u] := by
  unfold statsKeys recordOutcome
  by_cases hr : r = SendResult.str "UP" <;> simp [hr, keys_updateD]

theorem totalsKeys_record (st : MonitorState) (u : String) (r : SendResult) :
    totalsKeys (recordOutcome st u r) =
      if netloc u ∈ totalsKeys st then totalsKeys st
      else totalsKeys st ++ [netloc u] := by
  unfold totalsKeys recordOutcome
  simp [keys_updateD]

theorem statsKeys_record_mono (st : MonitorState) (u : String) (r : SendResult)
    (d : String) (h : d ∈ statsKeys st) :
    d ∈ statsKeys (recordOutcome st u r) := by
  rw [statsKeys_record]
  by_cases hm : netloc u ∈ statsKeys st <;> simp [hm, h]

theorem statsKeys_record_all_mono (tr : List (String × SendResult)) :
    ∀ (st : MonitorState) (d : String), d ∈ statsKeys st →
      d ∈ statsKeys (record_all st tr) := by
  induction tr with
  | nil => intro st d h; exact h
  | cons p rest ih =>
    intro st d h
    exact ih _ d (statsKeys_record_mono st p.1 p.2 d h)

/-! ### Snapshot lemmas -/

theorem snapshotGo_fst (items : List (String × DomainCounters)) :
    ∀ totals : List (String × ℕ),
      (snapshotGo items totals).1 = items.map
        (fun p => ⟨p.1, py_round (availability_of p.2.up
          ((lookupA totals p.1).getD 0))⟩) := by
  induction items with
  | nil => intro totals; simp [snapshotGo]
  | cons p rest ih =>
    intro totals
    obtain ⟨k, c⟩ := p
    simp only [snapshotGo, List.map_cons]
    refine congrArg₂ _ (by rw [dget_fst]) ?_
    rw [ih (dget totals k).2]
    simp [dget_getD]

theorem snapshotGo_snd_of_keys (items : List (String × DomainCounters)) :
    ∀ totals : List (String × ℕ),
      (∀ p ∈ items, p.1 ∈ totals.map Prod.fst) →
      (snapshotGo items totals).2 = totals := by
  induction items with
  | nil => intro totals _; simp [snapshotGo]
  | cons p rest ih =>
    intro totals h
    obtain ⟨k, c⟩ := p
    have hk : k ∈ totals.map Prod.fst := h (k, c) (by simp)
    simp only [snapshotGo]
    rw [dget_snd_of_mem totals k hk, ih totals (fun q hq => h q (by simp [hq]))]

theorem snapshot_fst (st : MonitorState) :
    (snapshot st).1 = st.domain_stats.map
      (fun p => ⟨p.1, py_round (availability_of p.2.up (totalCount st p.1))⟩) := by
  unfold snapshot totalCount
  simp [snapshotGo_fst]

/-! ### The aggregator invariant -/

theorem inv_init : Inv ⟨[], []⟩ := by
  refine ⟨rfl, fun d => ?_, fun d hd => ?_⟩
  · simp [upCount, downCount, totalCount, lookupA]
  · simp [statsKeys] at hd

theorem inv_record (st : MonitorState) (u : String) (r : SendResult)
    (h : Inv st) : Inv (recordOutcome st u r) := by
  obtain ⟨hkeys, hsum, hpos⟩ := h
  refine ⟨?_, fun d => ?_, fun d hd => ?_⟩
  · rw [statsKeys_record, totalsKeys_record, hkeys]
  · have hs := hsum d
    rw [upCount_record, downCount_record, totalCount_record]
    by_cases hdu : d = netloc u
    · subst hdu
      by_cases hr : r = SendResult.str "UP" <;> simp [hr] <;> omega
    · by_cases hr : r = SendResult.str "UP" <;> simp [hdu, hr] <;> omega
  · rw [totalCount_record]
    rw [statsKeys_record] at hd
    by_cases hdu : d = netloc u
    · simp [hdu]
    · simp only [hdu, if_false]
      by_cases hm : netloc u ∈ statsKeys st
      · rw [if_pos hm] at hd
        have := hpos d hd
        omega
      · rw [if_neg hm] at hd
        rcases List.mem_append.mp hd with hd' | hd'
        · have := hpos d hd'
          omega
        · exact absurd (by simpa using hd') hdu

theorem snapshot_snd_of_inv (st : MonitorState) (h : Inv st) :
    (snapshot st).2 = st := by
  obtain ⟨hkeys, _, _⟩ := h
  unfold snapshot
  have h2 : (snapshotGo st.domain_stats st.domain_totals).2 =
      st.domain_totals := by
    apply snapshotGo_snd_of_keys
    intro p hp
    have : p.1 ∈ statsKeys st := List.mem_map_of_mem Prod.fst hp
    rw [hkeys] at this
    exact this
  simp [h2]

theorem reachable_inv (st : MonitorState) (h : Reachable st) : Inv st := by
  induction h with
  | init => exact inv_init
  | record url status _ ih => exact inv_record _ url status ih
  | snap _ ih =>
    rw [snapshot_snd_of_inv _ ih]
    exact ih

/-! ### Cycle-shape lemmas -/

theorem monitor_cycle_eq (st : MonitorState) (endpoints : List Endpoint)
    (net : Endpoint → HttpMethod → NetResult) :
    monitor_cycle st endpoints net =
      ((snapshot (record_all st (cycle_trace endpoints net))).2,
       (snapshot (record_all st (cycle_trace endpoints net))).1) := by
  unfold monitor_cycle record_all cycle_trace
  rw [List.foldl_map]

/-! ### URL netloc lemmas -/

theorem splitAtColon_append (pre post : List Char) (h : ':' ∉ pre) :
    splitAtColon (pre ++ ':' :: post) = some (pre, post) := by
  induction pre with
  | nil => simp [splitAtColon]
  | cons c rest ih =>
    have hc : ¬(c = ':') := by
      intro hh
      exact h (by simp [hh])
    have hr : ':' ∉ rest := fun hh => h (by simp [hh])
    simp [splitAtColon, hc, ih hr]

theorem takeWhile_all_append (p : Char → Bool) (l1 l2 : List Char)
    (h : ∀ c ∈ l1, p c = true) :
    (l1 ++ l2).takeWhile p = l1 ++ l2.takeWhile p := by
  induction l1 with
  | nil => simp
  | cons c rest ih =>
    have hc := h c (by simp)
    simp only [List.cons_append, List.takeWhile_cons, hc, if_true]
    rw [ih (fun a ha => h a (by simp [ha]))]

theorem netloc_chars_url (scheme host path : List Char)
    (h1 : scheme ≠ [])
    (h2 : (scheme.headD 'a').isAlpha = true)
    (h3 : ∀ c ∈ scheme, is_scheme_char c = true)
    (h4 : ∀ c ∈ host, (c == '/' || c == '?' || c == '#') = false)
    (h5 : path = [] ∨ ∃ t, path = '/' :: t) :
    netloc_chars (scheme ++ ':' :: '/' :: '/' :: (host ++ path)) = host := by
  have hcol : ':' ∉ scheme := by
    intro hc
    have := h3 ':' hc
    simp [is_scheme_char] at this
  have hcond : (!scheme.isEmpty && (scheme.headD 'a').isAlpha &&
      scheme.all is_scheme_char) = true := by
    simp only [Bool.and_eq_true, Bool.not_eq_true', List.all_eq_true]
    refine ⟨⟨?_, h2⟩, h3⟩
    cases scheme with
    | nil => exact absurd rfl h1
    | cons c rest => rfl
  have hstrip : strip_scheme (scheme ++ ':' :: '/' :: '/' :: (host ++ path)) =
      '/' :: '/' :: (host ++ path) := by
    unfold strip_scheme
    rw [splitAtColon_append _ _ hcol]
    show (if (!scheme.isEmpty && (scheme.headD 'a').isAlpha &&
        scheme.all is_scheme_char) = true
      then '/' :: '/' :: (host ++ path)
      else scheme ++ ':' :: '/' :: '/' :: (host ++ path)) =
        '/' :: '/' :: (host ++ path)
    rw [if_pos hcond]
  unfold netloc_chars
  rw [hstrip]
  show (host ++ path).takeWhile _ = host
  rw [takeWhile_all_append _ host path (fun c hc => by simp [h4 c hc])]
  rcases h5 with h | ⟨t, h⟩ <;> subst h <;> simp [List.takeWhile_cons]

theorem netloc_scheme_host_path (scheme host path : String)
    (h1 : scheme.data ≠ [])
    (h2 : (scheme.data.headD 'a').isAlpha = true)
    (h3 : ∀ c ∈ scheme.data, is_scheme_char c = true)
    (h4 : ∀ c ∈ host.data, (c == '/' || c == '?' || c == '#') = false)
    (h5 : path.data = [] ∨ ∃ t, path.data = '/' :: t) :
    netloc (scheme ++ "://" ++ host ++ path) = host := by
  unfold netloc
  have hdata : (scheme ++ "://" ++ host ++ path).data =
      scheme.data ++ ':' :: '/' :: '/' :: (host.data ++ path.data) := by
    simp [String.data_append]
  rw [hdata, netloc_chars_url scheme.data host.data path.data h1 h2 h3 h4 h5]

/-! ### Snapshot threading preserves totals reads -/

theorem snapshotGo_snd_getD (items : List (String × DomainCounters)) :
    ∀ (totals : List (String × ℕ)) (k : String),
      (lookupA (snapshotGo items totals).2 k).getD 0 =
        (lookupA totals k).getD 0 := by
  induction items with
  | nil => intro totals k; simp [snapshotGo]
  | cons p rest ih =>
    intro totals k
    obtain ⟨a, c⟩ := p
    simp only [snapshotGo]
    rw [ih (dget totals a).2 k, dget_getD]

theorem totalCount_snapshot (st : MonitorState) (d : String) :
    totalCount (snapshot st).2 d = totalCount st d := by
  unfold totalCount snapshot
  simp [snapshotGo_snd_getD]

/-! ### Replay counting -/

theorem totalCount_record_all (events : List (String × SendResult)) :
    ∀ (st : MonitorState) (d : String),
      totalCount (record_all st events) d =
        totalCount st d + (events.filter (fun p => netloc p.1 == d)).length := by
  induction events with
  | nil => intro st d; simp [record_all]
  | cons p rest ih =>
    intro st d
    obtain ⟨u, r⟩ := p
    show totalCount (record_all (recordOutcome st u r) rest) d = _
    rw [ih (recordOutcome st u r) d, totalCount_record]
    by_cases h : netloc u = d
    · simp [List.filter_cons, h]
      omega
    · have h' : ¬(d = netloc u) := fun hh => h hh.symm
      simp [List.filter_cons, h, h']

/-- The branch structure of `send_request`, stated as an equation whose
right side cases on the transport result. -/
theorem send_request_def (method url : String)
    (headers : List (String × String)) (body : Option String)
    (net : HttpMethod → NetResult) :
    send_request method url headers body net =
      match net (method_switcher_get (py_upper method)) with
      | .exn => ⟨.str "DOWN", none, method_switcher_get (py_upper method)⟩
      | .response status latencyMs =>
        if 200 ≤ status ∧ status < 300 then
          if latencyMs < 500 then
            ⟨.str "UP", some latencyMs, method_switcher_get (py_upper method)⟩
          else ⟨.str "DOWN", some latencyMs, method_switcher_get (py_upper method)⟩
        else ⟨.str "DOWN", none, method_switcher_get (py_upper method)⟩ := rfl

/-- `send_request` when the transport raises. -/
theorem send_request_exn (method url : String)
    (headers : List (String × String)) (body : Option String)
    (net : HttpMethod → NetResult)
    (h : net (method_switcher_get (py_upper method)) = .exn) :
    send_request method url headers body net =
      ⟨.str "DOWN", none, method_switcher_get (py_upper method)⟩ := by
  rw [send_request_def, h]

/-- `send_request` when the transport delivers a response. -/
theorem send_request_resp (method url : String)
    (headers : List (String × String)) (body : Option String)
    (net : HttpMethod → NetResult) (s : ℤ) (l : ℚ)
    (h : net (method_switcher_get (py_upper method)) = .response s l) :
    send_request method url headers body net =
      if 200 ≤ s ∧ s < 300 then
        if l < 500 then ⟨.str "UP", some l, method_switcher_get (py_upper method)⟩
        else ⟨.str "DOWN", some l, method_switcher_get (py_upper method)⟩
      else ⟨.str "DOWN", none, method_switcher_get (py_upper method)⟩ := by
  rw [send_request_def, h]

/-! ### Claim theorems -/

/-- C1: for every probe, the outcome is UP if and only if the transport
delivered a response whose status code lies in [200, 300) and whose
measured latency is strictly below 500 ms; in every other case — status
outside [200, 300), latency at least 500 ms, or a transport exception —
the outcome is DOWN. -/
theorem c1_up_iff_2xx_and_fast :
    ∀ (method url : String) (headers : List (String × String))
      (body : Option String) (net : HttpMethod → NetResult),
      ((send_request method url headers body net).result = .str "UP" ↔
        ∃ status latency,
          net (method_switcher_get (py_upper method)) = .response status latency ∧
          200 ≤ status ∧ status < 300 ∧ latency < 500) ∧
      ((send_request method url headers body net).result = .str "UP" ∨
       (send_request method url headers body net).result = .str "DOWN") := by
  intro method url headers body net
  constructor
  · constructor
    · intro hup
      rcases hnet : net (method_switcher_get (py_upper method)) with _ | ⟨s, l⟩
      · rw [send_request_exn method url headers body net hnet] at hup
        exact absurd hup (show SendResult.str "DOWN" ≠ SendResult.str "UP" by decide)
      · rw [send_request_resp method url headers body net s l hnet] at hup
        by_cases h2 : 200 ≤ s ∧ s < 300
        · by_cases h5 : l < 500
          · exact ⟨s, l, rfl, h2.1, h2.2, h5⟩
          · rw [if_pos h2, if_neg h5] at hup
            exact absurd hup (show SendResult.str "DOWN" ≠ SendResult.str "UP" by decide)
        · rw [if_neg h2] at hup
          exact absurd hup (show SendResult.str "DOWN" ≠ SendResult.str "UP" by decide)
    · rintro ⟨s, l, hnet, hlo, hhi, hlat⟩
      rw [send_request_resp method url headers body net s l hnet,
        if_pos ⟨hlo, hhi⟩, if_pos hlat]
  · rcases hnet : net (method_switcher_get (py_upper method)) with _ | ⟨s, l⟩
    · rw [send_request_exn method url headers body net hnet]
      right; rfl
    · rw [send_request_resp method url headers body net s l hnet]
      by_cases h2 : 200 ≤ s ∧ s < 300
      · by_cases h5 : l < 500
        · rw [if_pos h2, if_pos h5]; left; rfl
        · rw [if_pos h2, if_neg h5]; right; rfl
      · rw [if_neg h2]; right; rfl

/-- C1 witness: a GET probe answered with status 200 and latency 50 ms is
classified UP. -/
theorem c1_witness :
    (send_request "GET" "http://example.com/" [] none
      (fun _ => NetResult.response 200 50)).result = SendResult.str "UP" :=
  (c1_up_iff_2xx_and_fast "GET" "http://example.com/" [] none
    (fun _ => NetResult.response 200 50)).1.mpr
    ⟨200, 50, rfl, by norm_num, by norm_num, by norm_num⟩

/-- C9: `send_request`, and hence `check_endpoint`, always returns one of
the two bare strings `'UP'` or `'DOWN'` — never a (status, latency) pair,
despite the annotated return type — and the local latency variable is
only ever assigned after a 2xx status is observed (so neither a transport
error nor a non-2xx response ever produces a latency value). -/
theorem c9_only_bare_strings :
    ∀ (method url : String) (headers : List (String × String))
      (body : Option String) (net : HttpMethod → NetResult)
      (e : Endpoint) (net2 : HttpMethod → NetResult),
      ((send_request method url headers body net).result = .str "UP" ∨
       (send_request method url headers body net).result = .str "DOWN") ∧
      (∀ (s : String) (lat : Option ℚ),
        (send_request method url headers body net).result ≠ .tuple s lat) ∧
      ((check_endpoint e net2).result = .str "UP" ∨
       (check_endpoint e net2).result = .str "DOWN") ∧
      (∀ l : ℚ, (send_request method url headers body net).latencyVar = some l →
        ∃ status, net (method_switcher_get (py_upper method)) = .response status l ∧
          200 ≤ status ∧ status < 300) ∧
      (net (method_switcher_get (py_upper method)) = .exn →
        (send_request method url headers body net).latencyVar = none) := by
  have core : ∀ (method url : String) (headers : List (String × String))
      (body : Option String) (net : HttpMethod → NetResult),
      (send_request method url headers body net).result = .str "UP" ∨
      (send_request method url headers body net).result = .str "DOWN" := by
    intro method url headers body net
    rcases hnet : net (method_switcher_get (py_upper method)) with _ | ⟨s, l⟩
    · rw [send_request_exn method url headers body net hnet]
      right; rfl
    · rw [send_request_resp method url headers body net s l hnet]
      by_cases h2 : 200 ≤ s ∧ s < 300
      · by_cases h5 : l < 500
        · rw [if_pos h2, if_pos h5]; left; rfl
        · rw [if_pos h2, if_neg h5]; right; rfl
      · rw [if_neg h2]; right; rfl
  intro method url headers body net e net2
  refine ⟨core method url headers body net, ?_, ?_, ?_, ?_⟩
  · intro s lat hcontra
    rcases core method url headers body net with h | h <;> rw [h] at hcontra <;>
      cases hcontra
  · exact core (e.method.getD "GET") e.url e.headers e.body net2
  · intro l hl
    rcases hnet : net (method_switcher_get (py_upper method)) with _ | ⟨s, l'⟩
    · rw [send_request_exn method url headers body net hnet] at hl
      cases hl
    · rw [send_request_resp method url headers body net s l' hnet] at hl
      by_cases h2 : 200 ≤ s ∧ s < 300
      · by_cases h5 : l' < 500
        · rw [if_pos h2, if_pos h5] at hl
          have hll : l' = l := by
            simpa using hl
          exact ⟨s, by rw [hll], h2.1, h2.2⟩
        · rw [if_pos h2, if_neg h5] at hl
          have hll : l' = l := by
            simpa using hl
          exact ⟨s, by rw [hll], h2.1, h2.2⟩
      · rw [if_neg h2] at hl
        cases hl
  · intro hexn
    rw [send_request_exn method url headers body net hexn]

/-- C9 witness: with a 200-status, 50 ms response the latency variable is
assigned 50, and C9 then yields a 2xx status behind it; with the same
setup the returned value is a bare string. -/
theorem c9_witness :
    ∃ status,
      (fun (_ : HttpMethod) => NetResult.response 200 50) HttpMethod.GET =
        NetResult.response status 50 ∧ 200 ≤ status ∧ status < 300 :=
  ((c9_only_bare_strings "GET" "http://example.com/" [] none
      (fun _ => NetResult.response 200 50)
      ⟨"http://example.com/", none, [], none⟩
      (fun _ => NetResult.response 200 50)).2.2.2.1 50 (by norm_num [send_request_def])).imp
    (fun status h => ⟨h.1, h.2⟩)

/-- C6: the HTTP method issued is the descriptor's method matched
case-insensitively (via upper-casing) against the seven-entry dispatch
table; a string whose upper-case form is not in the table (such as
`"FOO"`), or an absent method, results in a GET request, never an
error. -/
theorem c6_unknown_method_falls_back_to_get :
    ∀ (method url : String) (headers : List (String × String))
      (body : Option String) (net : HttpMethod → NetResult)
      (e : Endpoint) (net2 : HttpMethod → NetResult),
      ((send_request method url headers body net).methodUsed =
        method_switcher_get (py_upper method)) ∧
      (∀ m2 : String, py_upper method = py_upper m2 →
        (send_request method url headers body net).methodUsed =
        (send_request m2 url headers body net).methodUsed) ∧
      (py_upper method ∉
          (["GET", "POST", "PUT", "DELETE", "HEAD", "OPTIONS", "PATCH"] :
            List String) →
        (send_request method url headers body net).methodUsed = .GET) ∧
      (e.method = none →
        (check_endpoint e net2).methodUsed = method_switcher_get (py_upper "GET")) ∧
      (send_request "FOO" url headers body net).methodUsed = .GET := by
  have used : ∀ (m u : String) (hs : List (String × String)) (b : Option String)
      (nt : HttpMethod → NetResult),
      (send_request m u hs b nt).methodUsed = method_switcher_get (py_upper m) := by
    intro m u hs b nt
    rcases hnet : nt (method_switcher_get (py_upper m)) with _ | ⟨s, l⟩
    · rw [send_request_exn m u hs b nt hnet]
    · rw [send_request_resp m u hs b nt s l hnet]
      by_cases h2 : 200 ≤ s ∧ s < 300
      · by_cases h5 : l < 500
        · rw [if_pos h2, if_pos h5]
        · rw [if_pos h2, if_neg h5]
      · rw [if_neg h2]
  have fallback : ∀ m : String,
      m ∉ (["GET", "POST", "PUT", "DELETE", "HEAD", "OPTIONS", "PATCH"] :
        List String) → method_switcher_get m = .GET := by
    intro m hm
    simp only [List.mem_cons, List.not_mem_nil, or_false, not_or] at hm
    obtain ⟨n1, n2, n3, n4, n5, n6, n7⟩ := hm
    simp [method_switcher_get, n1, n2, n3, n4, n5, n6, n7]
  intro method url headers body net e net2
  refine ⟨used method url headers body net, ?_, ?_, ?_, ?_⟩
  · intro m2 hm
    rw [used method url headers body net, used m2 url headers body net, hm]
  · intro hnot
    rw [used method url headers body net, fallback _ hnot]
  · intro hnone
    unfold check_endpoint
    rw [hnone]
    exact used "GET" e.url e.headers e.body net2
  · rw [used "FOO" url headers body net]
    decide

/-- C6 witness: a probe whose descriptor carries the unknown method string
`"FOO"` issues a GET request. -/
theorem c6_witness :
    (send_request "FOO" "http://example.com/" [] none
      (fun _ => NetResult.exn)).methodUsed = HttpMethod.GET :=
  (c6_unknown_method_falls_back_to_get "FOO" "http://example.com/" [] none
    (fun _ => NetResult.exn)
    ⟨"http://example.com/", none, [], none⟩ (fun _ => NetResult.exn)).2.2.2.2

/-- C4: once the loop runs a cycle, every per-probe transport error is
absorbed and converted to a DOWN outcome: every declared endpoint is
probed and recorded (the trace has one entry per endpoint, so a failure
never aborts the cycle), an endpoint whose request raises is recorded as
DOWN, and the cycle always completes with the report of the fully
recorded state. -/
theorem c4_probe_errors_absorbed :
    ∀ (st : MonitorState) (endpoints : List Endpoint)
      (net : Endpoint → HttpMethod → NetResult),
      (cycle_trace endpoints net).length = endpoints.length ∧
      (∀ e ∈ endpoints, (∀ m, net e m = .exn) →
        (e.url, SendResult.str "DOWN") ∈ cycle_trace endpoints net) ∧
      monitor_cycle st endpoints net =
        ((snapshot (record_all st (cycle_trace endpoints net))).2,
         (snapshot (record_all st (cycle_trace endpoints net))).1) := by
  intro st endpoints net
  refine ⟨by simp [cycle_trace], ?_, monitor_cycle_eq st endpoints net⟩
  intro e he hexn
  have hdown : (check_endpoint e (net e)).result = .str "DOWN" := by
    unfold check_endpoint
    rw [send_request_def, hexn]
  unfold cycle_trace
  exact List.mem_map.mpr ⟨e, he, by rw [hdown]⟩

/-- C4 witness: in a two-endpoint cycle whose first request raises a
transport exception, the first endpoint is still recorded — as DOWN. -/
theorem c4_witness :
    (("http://a.example/x" : String), SendResult.str "DOWN") ∈
      cycle_trace
        [⟨"http://a.example/x", none, [], none⟩,
         ⟨"http://b.example/y", none, [], none⟩]
        (fun e _ => if e.url = "http://a.example/x" then .exn
          else .response 200 50) :=
  (c4_probe_errors_absorbed ⟨[], []⟩
      [⟨"http://a.example/x", none, [], none⟩,
       ⟨"http://b.example/y", none, [], none⟩]
      (fun e _ => if e.url = "http://a.example/x" then .exn
        else .response 200 50)).2.1
    ⟨"http://a.example/x", none, [], none⟩ (by simp)
    (fun m => by simp)

/-- C2: the reported availability percentage equals
`round(100 * upCount / totalCount)` when `totalCount > 0` and is exactly 0
when `totalCount = 0` (the division branch is guarded, so no division by
zero occurs); in particular after recording UP, DOWN, UP for one domain
the counters are 3 and 2 and the reported availability is 67. -/
theorem c2_availability_percentage :
    ∀ (up total : ℕ) (st : MonitorState),
      (total = 0 → py_round (availability_of up total) = 0) ∧
      (total ≠ 0 → py_round (availability_of up total) =
        py_round ((100 * up : ℚ) / total)) ∧
      ((snapshot st).1 = st.domain_stats.map
        (fun p => ⟨p.1, py_round (availability_of p.2.up (totalCount st p.1))⟩)) ∧
      (totalCount sample3 "example.com" = 3 ∧
       upCount sample3 "example.com" = 2 ∧
       (snapshot sample3).1 = [⟨"example.com", 67⟩]) := by
  intro up total st
  refine ⟨?_, ?_, snapshot_fst st, ?_, ?_, ?_⟩
  · intro h
    subst h
    norm_num [availability_of, py_round]
  · intro h
    simp [availability_of, h]
  · decide
  · decide
  · have h : sample3 = ⟨[("example.com", ⟨2, 1⟩)], [("example.com", 3)]⟩ := by
      decide
    rw [h]
    simp only [snapshot, snapshotGo, dget, lookupA]
    norm_num [availability_of, py_round]

/-- C2 witness: a domain with `totalCount = 0` reports exactly 0, and the
UP, DOWN, UP scenario reports the single line `example.com: 67`. -/
theorem c2_witness :
    py_round (availability_of 5 0) = 0 ∧
    (snapshot sample3).1 = [⟨"example.com", 67⟩] :=
  ⟨(c2_availability_percentage 5 0 ⟨[], []⟩).1 rfl,
   (c2_availability_percentage 0 0 sample3).2.2.2.2.2⟩

/-- C3: recording an outcome increments the domain's `totalCount` by
exactly one unconditionally and its `upCount` by one iff the outcome is
UP; no other domain's counters change, counters never decrease and are
never reset (reporting a cycle preserves every total); from the initial
state, `totalCount` of a domain equals the number of probes recorded for
it; and `upCount ≤ totalCount` holds in every reachable state. -/
theorem c3_counters_monotone :
    ∀ (st : MonitorState) (url : String) (status : SendResult) (d : String)
      (events : List (String × SendResult)) (endpoints : List Endpoint)
      (net : Endpoint → HttpMethod → NetResult),
      (totalCount (recordOutcome st url status) (netloc url) =
        totalCount st (netloc url) + 1) ∧
      (upCount (recordOutcome st url status) (netloc url) =
        upCount st (netloc url) + (if status = .str "UP" then 1 else 0)) ∧
      (d ≠ netloc url →
        totalCount (recordOutcome st url status) d = totalCount st d ∧
        upCount (recordOutcome st url status) d = upCount st d) ∧
      (totalCount st d ≤ totalCount (recordOutcome st url status) d) ∧
      (upCount st d ≤ upCount (recordOutcome st url status) d) ∧
      (totalCount (record_all ⟨[], []⟩ events) d =
        (events.filter (fun p => netloc p.1 == d)).length) ∧
      (totalCount (monitor_cycle st endpoints net).1 d =
        totalCount (record_all st (cycle_trace endpoints net)) d) ∧
      (Reachable st → upCount st d ≤ totalCount st d) := by
  intro st url status d events endpoints net
  refine ⟨?_, ?_, ?_, ?_, ?_, ?_, ?_, ?_⟩
  · simp [totalCount_record]
  · rw [upCount_record]
    by_cases hs : status = SendResult.str "UP" <;> simp [hs]
  · intro hne
    rw [totalCount_record, upCount_record]
    simp [hne]
  · rw [totalCount_record]
    omega
  · rw [upCount_record]
    omega
  · rw [totalCount_record_all]
    simp [totalCount, lookupA]
  · rw [monitor_cycle_eq, totalCount_snapshot]
  · intro hre
    obtain ⟨_, hsum, _⟩ := reachable_inv st hre
    have := hsum d
    omega

/-- C3 witness: after three recorded probes for `example.com` its total is
the number of matching events, and the initial state satisfies
`upCount ≤ totalCount`. -/
theorem c3_witness :
    totalCount (record_all ⟨[], []⟩
        [("http://example.com/a", SendResult.str "UP"),
         ("http://example.com/a", SendResult.str "DOWN"),
         ("http://example.com/a", SendResult.str "UP")]) "example.com" =
      (([("http://example.com/a", SendResult.str "UP"),
         ("http://example.com/a", SendResult.str "DOWN"),
         ("http://example.com/a", SendResult.str "UP")] :
          List (String × SendResult)).filter
        (fun p => netloc p.1 == "example.com")).length ∧
    upCount ⟨[], []⟩ "example.com" ≤ totalCount ⟨[], []⟩ "example.com" :=
  ⟨(c3_counters_monotone ⟨[], []⟩ "http://example.com/a" (.str "UP")
      "example.com"
      [("http://example.com/a", SendResult.str "UP"),
       ("http://example.com/a", SendResult.str "DOWN"),
       ("http://example.com/a", SendResult.str "UP")]
      [] (fun _ _ => NetResult.exn)).2.2.2.2.2.1,
   (c3_counters_monotone ⟨[], []⟩ "http://example.com/a" (.str "UP")
      "example.com" [] [] (fun _ _ => NetResult.exn)).2.2.2.2.2.2.2
     Reachable.init⟩

/-- C5: two probes land in the same counters exactly when their URLs have
the same `netloc`: recording under equal netlocs bumps one shared total
by two, recording under different netlocs bumps each total by one; and
URLs that differ only in their path (same scheme and same host) always
have the same netloc, so paths never separate the counters. -/
theorem c5_same_netloc_same_counters :
    ∀ (st : MonitorState) (u1 u2 : String) (r1 r2 : SendResult)
      (scheme host p1 p2 : String),
      (netloc u1 = netloc u2 →
        totalCount (recordOutcome (recordOutcome st u1 r1) u2 r2) (netloc u1) =
          totalCount st (netloc u1) + 2) ∧
      (netloc u1 ≠ netloc u2 →
        totalCount (recordOutcome (recordOutcome st u1 r1) u2 r2) (netloc u1) =
          totalCount st (netloc u1) + 1 ∧
        totalCount (recordOutcome (recordOutcome st u1 r1) u2 r2) (netloc u2) =
          totalCount st (netloc u2) + 1) ∧
      (scheme.data ≠ [] → (scheme.data.headD 'a').isAlpha = true →
        (∀ c ∈ scheme.data, is_scheme_char c = true) →
        (∀ c ∈ host.data, (c == '/' || c == '?' || c == '#') = false) →
        (p1.data = [] ∨ ∃ t, p1.data = '/' :: t) →
        (p2.data = [] ∨ ∃ t, p2.data = '/' :: t) →
        netloc (scheme ++ "://" ++ host ++ p1) = host ∧
        netloc (scheme ++ "://" ++ host ++ p2) = host) := by
  intro st u1 u2 r1 r2 scheme host p1 p2
  refine ⟨?_, ?_, ?_⟩
  · intro heq
    rw [totalCount_record, totalCount_record]
    simp [heq]
  · intro hne
    constructor
    · rw [totalCount_record, totalCount_record]
      simp [hne]
    · rw [totalCount_record, totalCount_record]
      have hne' : netloc u2 ≠ netloc u1 := fun hh => hne hh.symm
      simp [hne']
  · intro h1 h2 h3 h4 h5 h6
    exact ⟨netloc_scheme_host_path scheme host p1 h1 h2 h3 h4 h5,
           netloc_scheme_host_path scheme host p2 h1 h2 h3 h4 h6⟩

/-- C5 witness: probing `/a` then `/b` on `example.com` bumps the one
shared total by two, and the two URLs indeed share a netloc. -/
theorem c5_witness :
    totalCount (recordOutcome
        (recordOutcome ⟨[], []⟩ "http://example.com/a" (SendResult.str "UP"))
        "http://example.com/b" (SendResult.str "DOWN"))
      (netloc "http://example.com/a") =
      totalCount ⟨[], []⟩ (netloc "http://example.com/a") + 2 ∧
    netloc ("http" ++ "://" ++ "example.com" ++ "/a") = "example.com" :=
  ⟨(c5_same_netloc_same_counters ⟨[], []⟩ "http://example.com/a"
      "http://example.com/b" (.str "UP") (.str "DOWN")
      "http" "example.com" "/a" "/b").1 (by decide),
   ((c5_same_netloc_same_counters ⟨[], []⟩ "http://example.com/a"
      "http://example.com/b" (.str "UP") (.str "DOWN")
      "http" "example.com" "/a" "/b").2.2 (by decide) (by decide)
      (by decide) (by decide) (Or.inr ⟨['a'], rfl⟩)
      (Or.inr ⟨['b'], rfl⟩)).1⟩

/-- C7: within a cycle the outcomes are recorded in exactly the declared
endpoint order (the cycle state is the in-order replay of the cycle
trace), the report is computed only from the fully recorded state, the
report has one line per domain of the aggregator — which includes every
domain observed in any earlier cycle — and consecutive cycles thread the
same aggregator state. -/
theorem c7_record_order_and_report_after :
    ∀ (st : MonitorState) (endpoints : List Endpoint)
      (net : Endpoint → HttpMethod → NetResult)
      (nets : List (Endpoint → HttpMethod → NetResult)),
      ((monitor_cycle st endpoints net).1 =
        (snapshot (record_all st (cycle_trace endpoints net))).2) ∧
      ((monitor_cycle st endpoints net).2 =
        (snapshot (record_all st (cycle_trace endpoints net))).1) ∧
      ((monitor_cycle st endpoints net).2.map ReportLine.domain =
        statsKeys (record_all st (cycle_trace endpoints net))) ∧
      (∀ d ∈ statsKeys st,
        d ∈ (monitor_cycle st endpoints net).2.map ReportLine.domain) ∧
      (monitor_endpoints endpoints (nets ++ [net]) =
        ((monitor_cycle (monitor_endpoints endpoints nets).1 endpoints net).1,
         (monitor_endpoints endpoints nets).2 ++
           [(monitor_cycle (monitor_endpoints endpoints nets).1 endpoints
              net).2])) := by
  intro st endpoints net nets
  have h1 : (monitor_cycle st endpoints net).1 =
      (snapshot (record_all st (cycle_trace endpoints net))).2 := by
    rw [monitor_cycle_eq]
  have h2 : (monitor_cycle st endpoints net).2 =
      (snapshot (record_all st (cycle_trace endpoints net))).1 := by
    rw [monitor_cycle_eq]
  have h3 : (monitor_cycle st endpoints net).2.map ReportLine.domain =
      statsKeys (record_all st (cycle_trace endpoints net)) := by
    rw [h2, snapshot_fst, List.map_map]
    rfl
  refine ⟨h1, h2, h3, ?_, ?_⟩
  · intro d hd
    rw [h3]
    exact statsKeys_record_all_mono (cycle_trace endpoints net) st d hd
  · unfold monitor_endpoints
    rw [List.foldl_append]
    rfl

/-- C7 witness: after the UP, DOWN, UP history, a report cycle over an
empty endpoint list still carries a line for the historically observed
domain `example.com`. -/
theorem c7_witness :
    "example.com" ∈
      (monitor_cycle sample3 [] (fun _ _ => NetResult.exn)).2.map
        ReportLine.domain :=
  (c7_record_order_and_report_after sample3 [] (fun _ _ => NetResult.exn)
      []).2.2.2.1 "example.com" (by decide)

/-- C8: producing the availability report leaves the aggregator state
unchanged: on every reachable state, the state after the reporting loop
— including the `defaultdict` reads of `domain_totals` — is exactly the
state before it. -/
theorem c8_snapshot_does_not_mutate :
    ∀ st : MonitorState, Reachable st → (snapshot st).2 = st :=
  fun st h => snapshot_snd_of_inv st (reachable_inv st h)

/-- C8 witness: reporting after one recorded probe returns the state
untouched. -/
theorem c8_witness :
    (snapshot (recordOutcome ⟨[], []⟩ "http://example.com/a"
        (SendResult.str "UP"))).2 =
      recordOutcome ⟨[], []⟩ "http://example.com/a" (SendResult.str "UP") :=
  c8_snapshot_does_not_mutate _
    (Reachable.record "http://example.com/a" (SendResult.str "UP")
      Reachable.init)

/-- C10: in every reachable aggregator state, `upCount + downCount =
totalCount` for every domain, the key sets (and order) of `domain_stats`
and `domain_totals` coincide, every tracked domain has `totalCount ≥ 1`,
and therefore every report line is computed by the division formula —
the `totalCount = 0` branch of the report is never taken. -/
theorem c10_up_down_total_and_no_zero_branch :
    ∀ st : MonitorState, Reachable st →
      (∀ d, upCount st d + downCount st d = totalCount st d) ∧
      statsKeys st = totalsKeys st ∧
      (∀ d ∈ statsKeys st, 1 ≤ totalCount st d) ∧
      ((snapshot st).1 = st.domain_stats.map
        (fun p => ⟨p.1, py_round ((100 * p.2.up : ℚ) / (totalCount st p.1))⟩)) := by
  intro st h
  obtain ⟨hkeys, hsum, hpos⟩ := reachable_inv st h
  refine ⟨hsum, hkeys, hpos, ?_⟩
  rw [snapshot_fst]
  apply List.map_congr_left
  intro p hp
  have hmem : p.1 ∈ statsKeys st := List.mem_map_of_mem Prod.fst hp
  have hne : totalCount st p.1 ≠ 0 := by
    have := hpos p.1 hmem
    omega
  simp [availability_of, hne]

/-- C10 witness: in the reachable UP, DOWN, UP state the two maps track
the same domains, and up + down = total for `example.com`. -/
theorem c10_witness :
    statsKeys sample3 = totalsKeys sample3 ∧
    upCount sample3 "example.com" + downCount sample3 "example.com" =
      totalCount sample3 "example.com" :=
  ⟨(c10_up_down_total_and_no_zero_branch sample3
      (Reachable.record _ _ (Reachable.record _ _
        (Reachable.record _ _ Reachable.init)))).2.1,
   (c10_up_down_total_and_no_zero_branch sample3
      (Reachable.record _ _ (Reachable.record _ _
        (Reachable.record _ _ Reachable.init)))).1 "example.com"⟩

end HealthCheck
